import Mathlib

/-!
Shallow embedding of `ViaStitching/keepout_checker.py` (KiCad keep-out zone
checker for via stitching).

Host-API calls (`pcbnew`) can raise exceptions; every such call is modelled
as returning `Except Unit α` (`.error ()` standing for an arbitrary raised
exception).  Python `try`/`except` blocks become a `match` on the
`Except`-valued body, replacing an error with the block's fail-open default.

The eight edge samples use `math.cos`/`math.sin` on IEEE doubles; binary
floating point is not shallowly embeddable, so the trigonometric values are
abstracted into a `TrigTable` parameter (the value the float computation
produces for each angle, as an exact rational), and the surrounding
arithmetic is exact rational arithmetic followed by Python `int()`
truncation toward zero.  The host layer-range constants
`pcbnew.PCBNEW_LAYER_ID_START` and `pcbnew.PCB_LAYER_ID_COUNT` are likewise
parameters (`start`, `count`).
-/

namespace ViaStitching

/-- A `pcbnew.VECTOR2I` point: integer nanometre coordinates. -/
structure Point where
  x : Int
  y : Int
deriving DecidableEq

/-- A position argument: either already a `VECTOR2I`, or some other object
whose coordinate conversion `VECTOR2I(int(p.x), int(p.y))` may raise. -/
inductive Position where
  | vec (p : Point)
  | other (conv : Except Unit Point)

/-- The `isinstance` check plus conversion performed at the top of
`_is_point_in_zone` and `is_via_allowed`. -/
def Position.toVec : Position → Except Unit Point
  | .vec p => .ok p
  | .other c => c

/-- The value returned by `zone.GetLayerSet()`: a membership query. -/
structure LayerSet where
  contains : Int → Bool

/-- A `pcbnew.ZONE` handle, reduced to the API surface the checker uses.
Each accessor may raise. -/
structure Zone where
  getIsRuleArea : Except Unit Bool
  getDoNotAllowVias : Except Unit Bool
  getLayerSet : Except Unit LayerSet
  hitTestFilledArea : Int → Point → Except Unit Bool

/-- A footprint handle; `Zones()` may raise. -/
structure Footprint where
  zonesOf : Except Unit (List Zone)

/-- A `pcbnew.BOARD` handle, reduced to the API surface the checker uses.
`hasGetModules` models `hasattr(board, 'GetModules')`. -/
structure Board where
  getAreaCount : Except Unit Nat
  getArea : Nat → Except Unit Zone
  hasGetModules : Bool
  getModules : Except Unit (List Footprint)
  getFootprints : Except Unit (List Footprint)

/-- A default zone handle, used only as a `getD` fallback in statements. -/
def defaultZone : Zone :=
  { getIsRuleArea := .error ()
    getDoNotAllowVias := .error ()
    getLayerSet := .error ()
    hitTestFilledArea := fun _ _ => .error () }

instance : Inhabited Zone := ⟨defaultZone⟩

/-- The short-circuit test `zone.GetIsRuleArea() and zone.GetDoNotAllowVias()`:
the second accessor is only called when the first returns true. -/
def zoneFlagCheck (z : Zone) : Except Unit Bool :=
  match z.getIsRuleArea with
  | .error e => .error e
  | .ok false => .ok false
  | .ok true => z.getDoNotAllowVias

/-- True when `zoneFlagCheck` runs without raising. -/
def flagOk (z : Zone) : Bool :=
  match zoneFlagCheck z with
  | .ok _ => true
  | .error _ => false

/-- True when both flags evaluate without raising and both are true:
the filter applied during collection. -/
def keeps (z : Zone) : Bool :=
  match zoneFlagCheck z with
  | .ok b => b
  | .error _ => false

/-- The inner loop `for zone in footprint.Zones(): if ... : zones.append(zone)`,
threading the accumulator; the `Bool` records whether an exception was raised
(which aborts the whole collection but keeps the accumulator). -/
def collectFromZoneList : List Zone → List Zone → List Zone × Bool
  | [], acc => (acc, false)
  | z :: rest, acc =>
    match zoneFlagCheck z with
    | .error _ => (acc, true)
    | .ok true => collectFromZoneList rest (acc ++ [z])
    | .ok false => collectFromZoneList rest acc

/-- The loop `for i in range(board.GetAreaCount()): zone = board.GetArea(i); ...`
over a list of indices, threading the accumulator; the `Bool` records a raise. -/
def collectAreasAux (b : Board) : List Nat → List Zone → List Zone × Bool
  | [], acc => (acc, false)
  | i :: rest, acc =>
    match b.getArea i with
    | .error _ => (acc, true)
    | .ok z =>
      match zoneFlagCheck z with
      | .error _ => (acc, true)
      | .ok true => collectAreasAux b rest (acc ++ [z])
      | .ok false => collectAreasAux b rest acc

/-- The loop `for footprint in footprints: for zone in footprint.Zones(): ...`,
threading the accumulator; the `Bool` records a raise. -/
def collectFootprintsAux : List Footprint → List Zone → List Zone × Bool
  | [], acc => (acc, false)
  | fp :: rest, acc =>
    match fp.zonesOf with
    | .error _ => (acc, true)
    | .ok zs =>
      match collectFromZoneList zs acc with
      | (acc2, true) => (acc2, true)
      | (acc2, false) => collectFootprintsAux rest acc2

/-- `KeepOutChecker._collect_keepout_zones`: board areas first, then
footprint zones; the whole scan sits in one `try` whose `except` swallows the
exception and returns whatever `zones` holds at that moment. -/
def collect_keepout_zones (b : Board) : List Zone :=
  match b.getAreaCount with
  | .error _ => []
  | .ok n =>
    match collectAreasAux b (List.range n) [] with
    | (acc, true) => acc
    | (acc, false) =>
      match (if b.hasGetModules then b.getModules else b.getFootprints) with
      | .error _ => acc
      | .ok fps => (collectFootprintsAux fps acc).1

/-- The checker object: `__init__` stores the board, the debug flag and the
cached zone list. -/
structure KeepOutChecker where
  board : Board
  debug : Bool
  keepout_zones : List Zone

/-- `KeepOutChecker.__init__(board, debug)`. -/
def KeepOutChecker.ofBoard (board : Board) (debug : Bool) : KeepOutChecker :=
  { board := board, debug := debug, keepout_zones := collect_keepout_zones board }

/-- The index list of `range(PCBNEW_LAYER_ID_START, PCBNEW_LAYER_ID_START +
PCB_LAYER_ID_COUNT)`. -/
def layerRange (start : Int) (count : Nat) : List Int :=
  (List.range count).map (fun (i : Nat) => start + (i : Int))

/-- The per-layer loop of `_is_point_in_zone`: for each layer id, if the zone
layer set contains it, call `HitTestFilledArea` (which may raise) and return
true on the first hit. -/
def hitLayersAux (z : Zone) (ls : LayerSet) (p : Point) :
    List Int → Except Unit Bool
  | [] => .ok false
  | l :: rest =>
    if ls.contains l then
      match z.hitTestFilledArea l p with
      | .error e => .error e
      | .ok true => .ok true
      | .ok false => hitLayersAux z ls p rest
    else hitLayersAux z ls p rest

/-- The body of the `try` block of `_is_point_in_zone`: convert the point,
query the layer set, loop over the layer range. -/
def isPointInZoneBody (start : Int) (count : Nat) (z : Zone) (pt : Position) :
    Except Unit Bool :=
  match pt.toVec with
  | .error e => .error e
  | .ok p =>
    match z.getLayerSet with
    | .error e => .error e
    | .ok ls => hitLayersAux z ls p (layerRange start count)

/-- `KeepOutChecker._is_point_in_zone`: the `try` body with the `except`
clause returning false. -/
def is_point_in_zone (start : Int) (count : Nat) (z : Zone) (pt : Position) :
    Bool :=
  match isPointInZoneBody start count z pt with
  | .ok b => b
  | .error _ => false

/-- The exact rational values the float computations
`math.cos(math.radians(d))` and `math.sin(math.radians(d))` produce. -/
structure TrigTable where
  cosd : Nat → Rat
  sind : Nat → Rat

/-- Python `int()` on a (here: rational) number: truncation toward zero. -/
def pyTrunc (q : Rat) : Int :=
  Int.tdiv q.num (q.den : Int)

/-- The literal angle list `[0, 45, 90, 135, 180, 225, 270, 315]`. -/
def angleList : List Nat := [0, 45, 90, 135, 180, 225, 270, 315]

/-- One edge sample: `VECTOR2I(int(position.x + via_radius * cos(rad)),
int(position.y + via_radius * sin(rad)))`. -/
def edgeSample (t : TrigTable) (p : Point) (r : Int) (d : Nat) : Point :=
  { x := pyTrunc ((p.x : Rat) + (r : Rat) * t.cosd d)
    y := pyTrunc ((p.y : Rat) + (r : Rat) * t.sind d) }

/-- The inner `for zone in self.keepout_zones` loop: first hit wins. -/
def anyZoneHits (start : Int) (count : Nat) (zones : List Zone) (p : Point) :
    Bool :=
  zones.any (fun z => is_point_in_zone start count z (.vec p))

/-- The body of the `try` block of `is_via_allowed`: convert the position,
test the centre against every zone, then (when `check_edges and via_size > 0`)
test the eight edge samples at radius `via_size // 2` (floor division). -/
def isViaAllowedBody (start : Int) (count : Nat) (t : TrigTable)
    (zones : List Zone) (pos : Position) (viaSize : Int) (checkEdges : Bool) :
    Except Unit Bool :=
  match pos.toVec with
  | .error e => .error e
  | .ok p =>
    if anyZoneHits start count zones p then .ok false
    else
      if checkEdges ∧ 0 < viaSize then
        if angleList.any (fun d =>
            anyZoneHits start count zones
              (edgeSample t p (Int.fdiv viaSize 2) d)) then .ok false
        else .ok true
      else .ok true

/-- `KeepOutChecker.is_via_allowed(position, via_size, check_edges)`: empty
cache short-circuits to true before the `try`; the `except` clause swallows
any raise and returns true (fail-open). -/
def KeepOutChecker.is_via_allowed (start : Int) (count : Nat) (t : TrigTable)
    (c : KeepOutChecker) (pos : Position) (viaSize : Int) (checkEdges : Bool) :
    Bool :=
  if c.keepout_zones.length = 0 then true
  else
    match isViaAllowedBody start count t c.keepout_zones pos viaSize checkEdges with
    | .ok b => b
    | .error _ => true

/-- `KeepOutChecker.get_zone_count()`. -/
def KeepOutChecker.get_zone_count (c : KeepOutChecker) : Nat :=
  c.keepout_zones.length

/-- The free function `is_via_allowed_at_position(board, position, via_size,
cached_checker, debug)`: build a fresh checker when none is supplied, then
call `is_via_allowed` with the default `check_edges=True`. -/
def is_via_allowed_at_position (start : Int) (count : Nat) (t : TrigTable)
    (board : Board) (pos : Position) (viaSize : Int)
    (cachedChecker : Option KeepOutChecker) (debug : Bool) : Bool :=
  let c :=
    match cachedChecker with
    | none => KeepOutChecker.ofBoard board debug
    | some cc => cc
  c.is_via_allowed start count t pos viaSize true

/-- A method call on a checker instance. -/
inductive ApiCall where
  | viaAllowed (pos : Position) (viaSize : Int) (checkEdges : Bool)
  | zoneCount

/-- The observable result of a method call. -/
inductive CallResult where
  | allowed (b : Bool)
  | count (n : Nat)

/-- Execute one method call, returning the checker as it stands after the
call together with the call's result.  The Python methods contain no
assignment to `self`, so the state component is the receiver itself. -/
def runCall (start : Int) (count : Nat) (t : TrigTable) (c : KeepOutChecker) :
    ApiCall → KeepOutChecker × CallResult
  | .viaAllowed pos vs ce =>
      (c, .allowed (c.is_via_allowed start count t pos vs ce))
  | .zoneCount => (c, .count c.get_zone_count)

/-- Execute a sequence of method calls, threading the checker state. -/
def runCalls (start : Int) (count : Nat) (t : TrigTable)
    (c : KeepOutChecker) : List ApiCall → KeepOutChecker
  | [] => c
  | a :: rest => runCalls start count t (runCall start count t c a).1 rest

/-- The zone stored at board index `i` (fallback value when the accessor
raises; only used in statements). -/
def zoneAt (b : Board) (i : Nat) : Zone :=
  match b.getArea i with
  | .ok z => z
  | .error _ => defaultZone

/-- True when both `GetArea(i)` and the flag test at index `i` run without
raising. -/
def areaFlagOk (b : Board) (i : Nat) : Bool :=
  match b.getArea i with
  | .ok z => flagOk z
  | .error _ => false

/-- True when the zone at index `i` is collected. -/
def areaKeeps (b : Board) (i : Nat) : Bool :=
  match b.getArea i with
  | .ok z => keeps z
  | .error _ => false

/-- The value of `HitTestFilledArea` when it does not raise (false fallback;
only used in statements). -/
def hitValue (z : Zone) (l : Int) (p : Point) : Bool :=
  match z.hitTestFilledArea l p with
  | .ok b => b
  | .error _ => false

theorem takeWhile_of_all {α} (p : α → Bool) (l : List α)
    (h : ∀ a ∈ l, p a = true) : l.takeWhile p = l := by
  induction l with
  | nil => rfl
  | cons a l ih =>
    rw [List.takeWhile_cons, h a (by simp)]
    simp only [if_true]
    rw [ih (fun x hx => h x (by simp [hx]))]

theorem collectFromZoneList_spec (zs acc : List Zone) :
    collectFromZoneList zs acc =
      (acc ++ (zs.takeWhile flagOk).filter keeps, !zs.all flagOk) := by
  induction zs generalizing acc with
  | nil => simp [collectFromZoneList]
  | cons z rest ih =>
    cases h : zoneFlagCheck z with
    | error e =>
      simp [collectFromZoneList, h, flagOk, List.takeWhile_cons]
    | ok b =>
      cases b with
      | true =>
        simp [collectFromZoneList, h, flagOk, keeps, List.takeWhile_cons, ih]
      | false =>
        simp [collectFromZoneList, h, flagOk, keeps, List.takeWhile_cons, ih]

theorem collectAreasAux_spec (b : Board) (idxs : List Nat) (acc : List Zone) :
    collectAreasAux b idxs acc =
      (acc ++ ((idxs.takeWhile (areaFlagOk b)).filter (areaKeeps b)).map (zoneAt b),
       !idxs.all (areaFlagOk b)) := by
  induction idxs generalizing acc with
  | nil => simp [collectAreasAux]
  | cons i rest ih =>
    cases hga : b.getArea i with
    | error e =>
      simp [collectAreasAux, hga, areaFlagOk, List.takeWhile_cons]
    | ok z =>
      cases h : zoneFlagCheck z with
      | error e =>
        simp [collectAreasAux, hga, h, areaFlagOk, flagOk, List.takeWhile_cons]
      | ok bkeep =>
        cases bkeep with
        | true =>
          simp [collectAreasAux, hga, h, areaFlagOk, areaKeeps, zoneAt, flagOk,
            keeps, List.takeWhile_cons, ih]
        | false =>
          simp [collectAreasAux, hga, h, areaFlagOk, areaKeeps, zoneAt, flagOk,
            keeps, List.takeWhile_cons, ih]

theorem collectFootprintsAux_ok (fps : List Footprint)
    (fzs : List (List Zone)) (acc : List Zone)
    (hf : fps.map Footprint.zonesOf = fzs.map Except.ok)
    (hok : ∀ z ∈ fzs.flatten, flagOk z = true) :
    collectFootprintsAux fps acc = (acc ++ fzs.flatten.filter keeps, false) := by
  induction fps generalizing fzs acc with
  | nil =>
    have : fzs = [] := by
      cases fzs with
      | nil => rfl
      | cons a l => simp at hf
    subst this
    simp [collectFootprintsAux]
  | cons fp rest ih =>
    cases fzs with
    | nil => simp at hf
    | cons zs fzrest =>
      simp only [List.map_cons, List.cons.injEq] at hf
      obtain ⟨hz, hrest⟩ := hf
      have hzsok : ∀ z ∈ zs, flagOk z = true := by
        intro z hzmem
        exact hok z (by simp [hzmem])
      have hall : zs.all flagOk = true := by
        rw [List.all_eq_true]; exact hzsok
      simp only [collectFootprintsAux, hz, collectFromZoneList_spec,
        takeWhile_of_all flagOk zs hzsok, hall, Bool.not_true]
      rw [ih fzrest (acc ++ zs.filter keeps) hrest
        (fun z hzmem => hok z (by simp at hzmem ⊢; exact Or.inr hzmem))]
      simp [List.append_assoc]

theorem collectFootprintsAux_append (fps : List Footprint) (acc : List Zone) :
    ∃ tail, (collectFootprintsAux fps acc).1 = acc ++ tail := by
  induction fps generalizing acc with
  | nil => exact ⟨[], by simp [collectFootprintsAux]⟩
  | cons fp rest ih =>
    cases hz : fp.zonesOf with
    | error e => exact ⟨[], by simp [collectFootprintsAux, hz]⟩
    | ok zs =>
      simp only [collectFootprintsAux, hz, collectFromZoneList_spec]
      cases hall : (!zs.all flagOk) with
      | true =>
        exact ⟨(zs.takeWhile flagOk).filter keeps, by simp [hall]⟩
      | false =>
        obtain ⟨tail, htail⟩ := ih (acc ++ (zs.takeWhile flagOk).filter keeps)
        exact ⟨(zs.takeWhile flagOk).filter keeps ++ tail, by
          simp [hall, htail, List.append_assoc]⟩

theorem range_map_getD (as : List Zone) :
    (List.range as.length).map (fun i => as.getD i defaultZone) = as := by
  induction as with
  | nil => simp
  | cons a rest ih =>
    have hcomp : ((fun i => (a :: rest).getD i defaultZone) ∘ Nat.succ)
        = fun i => rest.getD i defaultZone := by
      funext i
      simp [Function.comp]
    rw [List.length_cons, List.range_succ_eq_map, List.map_cons, List.map_map,
      hcomp, ih]
    rfl

theorem mem_layerRange (start : Int) (count : Nat) (l : Int) :
    l ∈ layerRange start count ↔ start ≤ l ∧ l < start + count := by
  induction count with
  | zero =>
    simp only [layerRange, List.range_zero, List.map_nil, List.not_mem_nil,
      false_iff]
    omega
  | succ n ih =>
    have hstep : layerRange start (n + 1) = layerRange start n ++ [start + n] := by
      simp [layerRange, List.range_succ]
    rw [hstep]
    simp only [List.mem_append, List.mem_singleton, ih]
    constructor
    · rintro (⟨h1, h2⟩ | rfl) <;> constructor <;> omega
    · rintro ⟨h1, h2⟩
      by_cases hc : l = start + n
      · exact Or.inr hc
      · exact Or.inl ⟨h1, by omega⟩

theorem hitLayersAux_ok (z : Zone) (ls : LayerSet) (p : Point) (idxs : List Int)
    (h : ∀ l ∈ idxs, ls.contains l = true →
      ∃ bv, z.hitTestFilledArea l p = .ok bv) :
    hitLayersAux z ls p idxs =
      .ok (idxs.any fun l => ls.contains l && hitValue z l p) := by
  induction idxs with
  | nil => rfl
  | cons l rest ih =>
    cases hc : ls.contains l with
    | false =>
      simp [hitLayersAux, hc, ih (fun x hx hcx => h x (by simp [hx]) hcx)]
    | true =>
      obtain ⟨bv, hbv⟩ := h l (by simp) hc
      cases bv with
      | true => simp [hitLayersAux, hc, hbv, hitValue]
      | false =>
        simp [hitLayersAux, hc, hbv, hitValue,
          ih (fun x hx hcx => h x (by simp [hx]) hcx)]

theorem hitLayersAux_congr (z z' : Zone) (ls : LayerSet) (p : Point)
    (idxs : List Int)
    (h : ∀ l ∈ idxs, ls.contains l = true →
      z'.hitTestFilledArea l p = z.hitTestFilledArea l p) :
    hitLayersAux z' ls p idxs = hitLayersAux z ls p idxs := by
  induction idxs with
  | nil => rfl
  | cons l rest ih =>
    cases hc : ls.contains l with
    | false =>
      simp [hitLayersAux, hc, ih (fun x hx hcx => h x (by simp [hx]) hcx)]
    | true =>
      rw [hitLayersAux, hitLayersAux, hc, h l (by simp) hc]
      simp only [if_true]
      cases z.hitTestFilledArea l p with
      | error e => rfl
      | ok b =>
        cases b with
        | true => rfl
        | false => exact ih (fun x hx hcx => h x (by simp [hx]) hcx)

theorem areaKeeps_eq (b : Board) (i : Nat) :
    areaKeeps b i = keeps (zoneAt b i) := by
  cases h : b.getArea i with
  | error e => simp [areaKeeps, zoneAt, h, keeps, zoneFlagCheck, defaultZone]
  | ok z => simp [areaKeeps, zoneAt, h]

theorem filter_map_comm {α β} (f : α → β) (p : β → Bool) (l : List α) :
    (l.filter fun a => p (f a)).map f = (l.map f).filter p := by
  induction l with
  | nil => rfl
  | cons a l ih =>
    by_cases h : p (f a) = true
    · simp [List.filter_cons, h, ih]
    · simp [List.filter_cons, h, ih]

theorem keeps_iff (z : Zone) (h : flagOk z = true) :
    keeps z = true ↔
      z.getIsRuleArea = .ok true ∧ z.getDoNotAllowVias = .ok true := by
  cases hra : z.getIsRuleArea with
  | error e => simp [flagOk, zoneFlagCheck, hra] at h
  | ok ra =>
    cases ra with
    | false =>
      simp only [keeps, zoneFlagCheck, hra]
      constructor
      · intro hfalse; cases hfalse
      · rintro ⟨h1, h2⟩; cases h1
    | true =>
      cases hdv : z.getDoNotAllowVias with
      | error e => simp [flagOk, zoneFlagCheck, hra, hdv] at h
      | ok dv =>
        simp only [keeps, zoneFlagCheck, hra, hdv]
        cases dv with
        | false =>
          constructor
          · intro hfalse; cases hfalse
          · rintro ⟨h1, h2⟩; cases h2
        | true => simp [hra, hdv]

theorem is_via_allowed_nonempty (start : Int) (count : Nat) (t : TrigTable)
    (c : KeepOutChecker) (pos : Position) (viaSize : Int) (checkEdges : Bool)
    (hz : c.keepout_zones ≠ []) :
    c.is_via_allowed start count t pos viaSize checkEdges =
      match isViaAllowedBody start count t c.keepout_zones pos viaSize checkEdges
      with
      | .ok b => b
      | .error _ => true := by
  have hlen : ¬ c.keepout_zones.length = 0 := by
    simpa [List.length_eq_zero] using hz
  rw [KeepOutChecker.is_via_allowed, if_neg hlen]

theorem is_via_allowed_no_edge (start : Int) (count : Nat) (t : TrigTable)
    (c : KeepOutChecker) (p : Point) (viaSize : Int)
    (hz : c.keepout_zones ≠ []) :
    c.is_via_allowed start count t (.vec p) viaSize false =
      !anyZoneHits start count c.keepout_zones p := by
  rw [is_via_allowed_nonempty start count t c (.vec p) viaSize false hz]
  cases h : anyZoneHits start count c.keepout_zones p with
  | true => simp [isViaAllowedBody, Position.toVec, h]
  | false => simp [isViaAllowedBody, Position.toVec, h]

theorem is_via_allowed_edge (start : Int) (count : Nat) (t : TrigTable)
    (c : KeepOutChecker) (p : Point) (viaSize : Int)
    (hz : c.keepout_zones ≠ []) (hv : 0 < viaSize) :
    c.is_via_allowed start count t (.vec p) viaSize true =
      ((!anyZoneHits start count c.keepout_zones p) &&
       !(angleList.any fun d =>
          anyZoneHits start count c.keepout_zones
            (edgeSample t p (Int.fdiv viaSize 2) d))) := by
  rw [is_via_allowed_nonempty start count t c (.vec p) viaSize true hz]
  cases h : anyZoneHits start count c.keepout_zones p with
  | true => simp [isViaAllowedBody, Position.toVec, h]
  | false =>
    cases he : (angleList.any fun d =>
        anyZoneHits start count c.keepout_zones
          (edgeSample t p (Int.fdiv viaSize 2) d)) with
    | true => simp [isViaAllowedBody, Position.toVec, h, he, hv]
    | false => simp [isViaAllowedBody, Position.toVec, h, he, hv]

theorem runCalls_id (start : Int) (count : Nat) (t : TrigTable)
    (c : KeepOutChecker) (calls : List ApiCall) :
    runCalls start count t c calls = c := by
  induction calls generalizing c with
  | nil => rfl
  | cons a rest ih =>
    cases a with
    | viaAllowed pos vs ce => exact ih c
    | zoneCount => exact ih c

/-- A trig table with all values zero, for concrete witnesses. -/
def trivTrig : TrigTable := ⟨fun _ => 0, fun _ => 0⟩

/-- The layer set containing every layer id. -/
def allLayers : LayerSet := ⟨fun _ => true⟩

/-- A keep-out zone that hits every point on every layer. -/
def hitZone : Zone :=
  { getIsRuleArea := .ok true
    getDoNotAllowVias := .ok true
    getLayerSet := .ok allLayers
    hitTestFilledArea := fun _ _ => .ok true }

/-- A keep-out zone that hits nothing. -/
def missZone : Zone :=
  { getIsRuleArea := .ok true
    getDoNotAllowVias := .ok true
    getLayerSet := .ok allLayers
    hitTestFilledArea := fun _ _ => .ok false }

/-- A footprint carrying one keep-out zone. -/
def sampleFootprint : Footprint := ⟨.ok [missZone]⟩

/-- A board with one board-level keep-out area and one footprint. -/
def sampleBoard : Board :=
  { getAreaCount := .ok 1
    getArea := fun i => if i = 0 then .ok hitZone else .error ()
    hasGetModules := false
    getModules := .error ()
    getFootprints := .ok [sampleFootprint] }

/-- A checker with one cached zone. -/
def sampleChecker : KeepOutChecker := ⟨sampleBoard, false, [hitZone]⟩

/-- A checker with an empty cache. -/
def emptyChecker : KeepOutChecker := ⟨sampleBoard, false, []⟩

/-- Claim C2: for a checker with a non-empty cache and a `VECTOR2I` position
(no exception possible), `is_via_allowed` with `check_edges=False` returns
true exactly when no cached zone contains the centre, equals the in-order
short-circuit disjunction over the cached zones, and does not depend on
`via_size`. -/
theorem claim_C2 (start : Int) (count : Nat) (t : TrigTable)
    (c : KeepOutChecker) (p : Point) (viaSize : Int)
    (hz : c.keepout_zones ≠ []) :
    (c.is_via_allowed start count t (.vec p) viaSize false = true ↔
      ∀ z ∈ c.keepout_zones, is_point_in_zone start count z (.vec p) = false) ∧
    c.is_via_allowed start count t (.vec p) viaSize false =
      !(c.keepout_zones.any fun z => is_point_in_zone start count z (.vec p)) ∧
    ∀ v2 : Int, c.is_via_allowed start count t (.vec p) viaSize false =
      c.is_via_allowed start count t (.vec p) v2 false := by
  have heq := is_via_allowed_no_edge start count t c p viaSize hz
  refine ⟨?_, heq, fun v2 => ?_⟩
  · rw [heq]
    simp [anyZoneHits]
  · rw [heq, is_via_allowed_no_edge start count t c p v2 hz]

/-- Witness for claim C2 at a concrete checker with one all-hitting zone. -/
theorem claim_C2_w :
    (KeepOutChecker.is_via_allowed 0 1 trivTrig sampleChecker
        (.vec ⟨0, 0⟩) 5 false = true ↔
      ∀ z ∈ sampleChecker.keepout_zones,
        is_point_in_zone 0 1 z (.vec ⟨0, 0⟩) = false) ∧
    KeepOutChecker.is_via_allowed 0 1 trivTrig sampleChecker
        (.vec ⟨0, 0⟩) 5 false =
      !(sampleChecker.keepout_zones.any fun z =>
        is_point_in_zone 0 1 z (.vec ⟨0, 0⟩)) ∧
    ∀ v2 : Int, KeepOutChecker.is_via_allowed 0 1 trivTrig sampleChecker
        (.vec ⟨0, 0⟩) 5 false =
      KeepOutChecker.is_via_allowed 0 1 trivTrig sampleChecker
        (.vec ⟨0, 0⟩) v2 false :=
  claim_C2 0 1 trivTrig sampleChecker ⟨0, 0⟩ 5 (List.cons_ne_nil hitZone [])

/-- Claim C3: with `check_edges=True` and `via_size > 0`, the result is the
conjunction of the centre test and the eight edge-sample tests: the sample
angles are exactly 0, 45, ..., 315 degrees, eight of them, the radius is the
integer division `via_size // 2`, each sample coordinate is truncated after
the trigonometric computation (see `edgeSample`), each sample is tested
against every cached zone, any hit yields false, and no hit yields true. -/
theorem claim_C3 (start : Int) (count : Nat) (t : TrigTable)
    (c : KeepOutChecker) (p : Point) (viaSize : Int)
    (hz : c.keepout_zones ≠ []) (hv : 0 < viaSize) :
    angleList = [0, 45, 90, 135, 180, 225, 270, 315] ∧
    angleList.length = 8 ∧
    c.is_via_allowed start count t (.vec p) viaSize true =
      ((!(c.keepout_zones.any fun z =>
          is_point_in_zone start count z (.vec p))) &&
       !(angleList.any fun d => c.keepout_zones.any fun z =>
          is_point_in_zone start count z
            (.vec (edgeSample t p (Int.fdiv viaSize 2) d)))) := by
  exact ⟨rfl, rfl, is_via_allowed_edge start count t c p viaSize hz hv⟩

/-- Witness for claim C3 at a concrete checker and `via_size = 5`. -/
theorem claim_C3_w :
    angleList = [0, 45, 90, 135, 180, 225, 270, 315] ∧
    angleList.length = 8 ∧
    KeepOutChecker.is_via_allowed 0 1 trivTrig sampleChecker
        (.vec ⟨0, 0⟩) 5 true =
      ((!(sampleChecker.keepout_zones.any fun z =>
          is_point_in_zone 0 1 z (.vec ⟨0, 0⟩))) &&
       !(angleList.any fun d => sampleChecker.keepout_zones.any fun z =>
          is_point_in_zone 0 1 z
            (.vec (edgeSample trivTrig ⟨0, 0⟩ (Int.fdiv 5 2) d)))) :=
  claim_C3 0 1 trivTrig sampleChecker ⟨0, 0⟩ 5
    (List.cons_ne_nil hitZone []) (by decide)

/-- Claim C4: a checker whose cached zone list is empty returns true for
every position (including ones whose conversion would raise), every via
size and both edge modes. -/
theorem claim_C4 (start : Int) (count : Nat) (t : TrigTable)
    (c : KeepOutChecker) (pos : Position) (viaSize : Int) (checkEdges : Bool)
    (h : c.keepout_zones = []) :
    c.is_via_allowed start count t pos viaSize checkEdges = true := by
  simp [KeepOutChecker.is_via_allowed, h]

/-- Witness for claim C4 at the empty checker with a degenerate size. -/
theorem claim_C4_w :
    KeepOutChecker.is_via_allowed 0 1 trivTrig emptyChecker
      (.other (.error ())) (-7) true = true :=
  claim_C4 0 1 trivTrig emptyChecker (.other (.error ())) (-7) true rfl

/-- Claim C7: whenever the body of the point-in-zone test raises (coordinate
conversion, layer-set query or filled-area hit test), `_is_point_in_zone`
returns false instead of propagating. -/
theorem claim_C7 (start : Int) (count : Nat) (z : Zone) (pt : Position)
    (e : Unit) (h : isPointInZoneBody start count z pt = .error e) :
    is_point_in_zone start count z pt = false := by
  simp [is_point_in_zone, h]

/-- Witness for claim C7 at a zone whose layer-set accessor raises. -/
theorem claim_C7_w :
    is_point_in_zone 0 1 defaultZone (.vec ⟨0, 0⟩) = false :=
  claim_C7 0 1 defaultZone (.vec ⟨0, 0⟩) () rfl

/-- Claim C8: the zone cache is never re-scanned or mutated: any sequence of
`is_via_allowed` and `get_zone_count` calls leaves the checker (hence its
cached list and zone count) identical. -/
theorem claim_C8 (start : Int) (count : Nat) (t : TrigTable)
    (c : KeepOutChecker) (calls : List ApiCall) :
    runCalls start count t c calls = c ∧
    (runCalls start count t c calls).keepout_zones = c.keepout_zones ∧
    (runCalls start count t c calls).get_zone_count = c.get_zone_count ∧
    ∀ a : ApiCall, (runCall start count t c a).1 = c := by
  have h := runCalls_id start count t c calls
  exact ⟨h, by rw [h], by rw [h], fun a => by cases a <;> rfl⟩

/-- Claim C9: for `via_size ≤ 0` (negative values accepted without
validation), the edge-sampling branch is skipped, so `check_edges=True` and
`check_edges=False` give the same result at every position. -/
theorem claim_C9 (start : Int) (count : Nat) (t : TrigTable)
    (c : KeepOutChecker) (pos : Position) (viaSize : Int)
    (h : viaSize ≤ 0) :
    c.is_via_allowed start count t pos viaSize true =
      c.is_via_allowed start count t pos viaSize false := by
  have hnot : ¬ (0 < viaSize) := by omega
  have hbody : isViaAllowedBody start count t c.keepout_zones pos viaSize true =
      isViaAllowedBody start count t c.keepout_zones pos viaSize false := by
    cases hpt : pos.toVec with
    | error e => simp [isViaAllowedBody, hpt]
    | ok p =>
      by_cases hh : anyZoneHits start count c.keepout_zones p = true
      · simp [isViaAllowedBody, hpt, hh]
      · simp [isViaAllowedBody, hpt, hh, hnot]
  rw [KeepOutChecker.is_via_allowed, KeepOutChecker.is_via_allowed, hbody]

/-- Witness for claim C9 at a negative via size. -/
theorem claim_C9_w :
    KeepOutChecker.is_via_allowed 0 1 trivTrig sampleChecker
        (.vec ⟨0, 0⟩) (-3) true =
      KeepOutChecker.is_via_allowed 0 1 trivTrig sampleChecker
        (.vec ⟨0, 0⟩) (-3) false :=
  claim_C9 0 1 trivTrig sampleChecker (.vec ⟨0, 0⟩) (-3) (by decide)

/-- Claim C10: the free function always checks edges: with a cached checker
supplied it equals that checker's `is_via_allowed` with `check_edges=True`
and ignores the board and debug arguments; with none it builds a fresh
checker from the board and calls the same method. -/
theorem claim_C10 (start : Int) (count : Nat) (t : TrigTable)
    (b b2 : Board) (pos : Position) (viaSize : Int) (cc : KeepOutChecker)
    (dbg dbg2 : Bool) :
    is_via_allowed_at_position start count t b pos viaSize (some cc) dbg =
      cc.is_via_allowed start count t pos viaSize true ∧
    is_via_allowed_at_position start count t b pos viaSize (some cc) dbg =
      is_via_allowed_at_position start count t b2 pos viaSize (some cc) dbg2 ∧
    is_via_allowed_at_position start count t b pos viaSize none dbg =
      (KeepOutChecker.ofBoard b dbg).is_via_allowed start count t pos viaSize
        true :=
  ⟨rfl, rfl, rfl⟩

/-- Claim C1: no exception propagates out of the public operations: every
raise during collection (per-zone flag scan, board-area scan, footprint
scan) leaves the accumulated-so-far list intact and collection total, and a
raise inside the body of `is_via_allowed` after the empty-cache check makes
the method return true. -/
theorem claim_C1 (zs acc : List Zone) (b : Board) (idxs : List Nat)
    (acc2 : List Zone) (fps : List Footprint) (acc3 : List Zone)
    (start : Int) (count : Nat) (t : TrigTable) (c : KeepOutChecker)
    (pos : Position) (viaSize : Int) (checkEdges : Bool) (e : Unit)
    (hz : c.keepout_zones ≠ [])
    (hb : isViaAllowedBody start count t c.keepout_zones pos viaSize checkEdges
      = .error e) :
    (collectFromZoneList zs acc).1 =
      acc ++ (zs.takeWhile flagOk).filter keeps ∧
    (collectAreasAux b idxs acc2).1 =
      acc2 ++
        ((idxs.takeWhile (areaFlagOk b)).filter (areaKeeps b)).map (zoneAt b) ∧
    (∃ tail, (collectFootprintsAux fps acc3).1 = acc3 ++ tail) ∧
    c.is_via_allowed start count t pos viaSize checkEdges = true := by
  refine ⟨?_, ?_, collectFootprintsAux_append fps acc3, ?_⟩
  · rw [collectFromZoneList_spec]
  · rw [collectAreasAux_spec]
  · rw [is_via_allowed_nonempty start count t c pos viaSize checkEdges hz, hb]

/-- Witness for claim C1: a position whose conversion raises, against a
checker with one cached zone. -/
theorem claim_C1_w :
    (collectFromZoneList [defaultZone] [hitZone]).1 =
      [hitZone] ++ (([defaultZone].takeWhile flagOk).filter keeps) ∧
    (collectAreasAux sampleBoard [0] []).1 =
      [] ++ ((([0] : List Nat).takeWhile (areaFlagOk sampleBoard)).filter
        (areaKeeps sampleBoard)).map (zoneAt sampleBoard) ∧
    (∃ tail, (collectFootprintsAux [sampleFootprint] []).1 = [] ++ tail) ∧
    KeepOutChecker.is_via_allowed 0 1 trivTrig sampleChecker
      (.other (.error ())) 0 true = true :=
  claim_C1 [defaultZone] [hitZone] sampleBoard [0] [] [sampleFootprint] []
    0 1 trivTrig sampleChecker (.other (.error ())) 0 true ()
    (List.cons_ne_nil hitZone []) rfl

/-- Claim C5: absent exceptions, collection yields exactly the zones passing
both flags, board areas in index order first, then footprint zones in
footprint order then per-footprint order, with no deduplication, and
`get_zone_count` is the length of that list. -/
theorem claim_C5 (b : Board) (dbg : Bool) (as : List Zone)
    (fps : List Footprint) (fzs : List (List Zone))
    (hn : b.getAreaCount = .ok as.length)
    (ha : ∀ i, i < as.length → b.getArea i = .ok (as.getD i defaultZone))
    (hfps : (if b.hasGetModules then b.getModules else b.getFootprints)
      = .ok fps)
    (hfz : fps.map Footprint.zonesOf = fzs.map Except.ok)
    (hok : ∀ z ∈ as ++ fzs.flatten, flagOk z = true) :
    collect_keepout_zones b = (as ++ fzs.flatten).filter keeps ∧
    (KeepOutChecker.ofBoard b dbg).get_zone_count
      = ((as ++ fzs.flatten).filter keeps).length ∧
    ∀ z, flagOk z = true →
      (keeps z = true ↔
        z.getIsRuleArea = .ok true ∧ z.getDoNotAllowVias = .ok true) := by
  have hzoneAt : ∀ i ∈ List.range as.length,
      zoneAt b i = as.getD i defaultZone := by
    intro i hi
    rw [zoneAt, ha i (List.mem_range.1 hi)]
  have haok : ∀ i ∈ List.range as.length, areaFlagOk b i = true := by
    intro i hi
    have hi2 := List.mem_range.1 hi
    rw [areaFlagOk, ha i hi2]
    apply hok
    rw [List.getD_eq_getElem as defaultZone hi2]
    exact List.mem_append_left _ (List.getElem_mem hi2)
  have hall : (List.range as.length).all (areaFlagOk b) = true :=
    List.all_eq_true.2 haok
  have htake := takeWhile_of_all (areaFlagOk b) (List.range as.length) haok
  have hareas : collectAreasAux b (List.range as.length) [] =
      (as.filter keeps, false) := by
    rw [collectAreasAux_spec, htake, hall]
    simp only [Bool.not_true, List.nil_append]
    have h1 : (List.range as.length).filter (areaKeeps b) =
        (List.range as.length).filter (fun i => keeps (zoneAt b i)) :=
      List.filter_congr (fun i _ => areaKeeps_eq b i)
    rw [h1, filter_map_comm (zoneAt b) keeps (List.range as.length),
      List.map_congr_left hzoneAt, range_map_getD]
  have hfz_ok : ∀ z ∈ fzs.flatten, flagOk z = true :=
    fun z hzf => hok z (List.mem_append_right _ hzf)
  have hfpres := collectFootprintsAux_ok fps fzs (as.filter keeps) hfz hfz_ok
  have hmain : collect_keepout_zones b = (as ++ fzs.flatten).filter keeps := by
    simp only [collect_keepout_zones, hn, hareas, hfps, hfpres,
      List.filter_append]
  exact ⟨hmain, by
    simp only [KeepOutChecker.get_zone_count, KeepOutChecker.ofBoard, hmain],
    fun z hfl => keeps_iff z hfl⟩

/-- Witness for claim C5 at a board with one keep-out area and one footprint
zone. -/
theorem claim_C5_w :
    collect_keepout_zones sampleBoard =
      ([hitZone] ++ [[missZone]].flatten).filter keeps ∧
    (KeepOutChecker.ofBoard sampleBoard false).get_zone_count
      = (([hitZone] ++ [[missZone]].flatten).filter keeps).length ∧
    ∀ z, flagOk z = true →
      (keeps z = true ↔
        z.getIsRuleArea = .ok true ∧ z.getDoNotAllowVias = .ok true) :=
  claim_C5 sampleBoard false [hitZone] [sampleFootprint] [[missZone]]
    rfl
    (by intro i hi
        have hi2 : i < 1 := hi
        have h0 : i = 0 := by omega
        subst h0
        rfl)
    rfl rfl
    (by intro z hzin
        simp only [List.flatten, List.append_nil, List.cons_append,
          List.nil_append, List.mem_cons, List.mem_singleton] at hzin
        rcases hzin with rfl | hzin
        · rfl
        · rcases hzin with rfl | hzin
          · rfl
          · cases hzin)

/-- Claim C6: absent exceptions the point-in-zone test is the short-circuit
disjunction, over every layer id in the range, of layer-set membership
conjoined with the filled-area hit test; the layer range is exactly the
interval of valid ids; and the hit test at layers outside the zone's layer
set never influences the result. -/
theorem claim_C6 (start : Int) (count : Nat) (z z2 : Zone) (ls : LayerSet)
    (p : Point) (pt : Position)
    (hls : z.getLayerSet = .ok ls)
    (hht : ∀ l ∈ layerRange start count, ls.contains l = true →
      ∃ bv, z.hitTestFilledArea l p = .ok bv)
    (hls2 : z2.getLayerSet = z.getLayerSet)
    (hagree : ∀ l q, ls.contains l = true →
      z2.hitTestFilledArea l q = z.hitTestFilledArea l q) :
    (∀ l : Int, l ∈ layerRange start count ↔ start ≤ l ∧ l < start + count) ∧
    is_point_in_zone start count z (.vec p) =
      ((layerRange start count).any fun l => ls.contains l && hitValue z l p) ∧
    is_point_in_zone start count z2 pt = is_point_in_zone start count z pt := by
  refine ⟨fun l => mem_layerRange start count l, ?_, ?_⟩
  · simp only [is_point_in_zone, isPointInZoneBody, Position.toVec, hls,
      hitLayersAux_ok z ls p (layerRange start count) hht]
  · cases hpt : pt.toVec with
    | error e => simp [is_point_in_zone, isPointInZoneBody, hpt]
    | ok q =>
      have hcongr := hitLayersAux_congr z z2 ls q (layerRange start count)
        (fun l _ hc => hagree l q hc)
      simp [is_point_in_zone, isPointInZoneBody, hpt, hls2, hls, hcongr]

/-- Witness for claim C6 at the all-hitting zone compared with itself. -/
theorem claim_C6_w :
    (∀ l : Int, l ∈ layerRange 0 1 ↔ 0 ≤ l ∧ l < 0 + ((1 : Nat) : Int)) ∧
    is_point_in_zone 0 1 hitZone (.vec ⟨0, 0⟩) =
      ((layerRange 0 1).any fun l =>
        allLayers.contains l && hitValue hitZone l ⟨0, 0⟩) ∧
    is_point_in_zone 0 1 hitZone (.vec ⟨1, 1⟩) =
      is_point_in_zone 0 1 hitZone (.vec ⟨1, 1⟩) :=
  claim_C6 0 1 hitZone hitZone allLayers ⟨0, 0⟩ (.vec ⟨1, 1⟩) rfl
    (fun _ _ _ => ⟨true, rfl⟩) rfl (fun _ _ _ => rfl)

end ViaStitching
